import Mathlib

/-!
Shallow embedding of `crates/rbuilder/src/live_builder/order_input/clean_orderpool.rs`
(`spawn_clean_orderpool_job`), the background maintenance job that, on every new
block header, synchronizes the shared `OrderPool` (`head_updated`) and emits
metrics/logs.

The async job is embedded as a pure function from an *environment* — the finite
sequence of header events actually produced by the subscription stream, the
per-event outcome of `provider_factory.latest()`, the per-event mutex-poison
status, the point (if any) at which the `CancellationToken` fires relative to
the event awaits (`take_until` semantics), and whether the in-task
`subscribe_blocks` succeeds — to the finite trace of observable effects
(`Action` list): lock acquire/release, `head_updated` calls, `content_count`
reads, metric emissions, log lines, `Instant::now`/`elapsed` timer boundaries,
and `CancellationToken::cancel` calls.  Each trace action corresponds to one
source line; the order of actions inside a cycle mirrors the source, including
the fact that the `MutexGuard` obtained on line 62 is dropped only at the end
of the `while` body (Rust scope-based drop), i.e. after `set_ordepool_count`
and the `debug!` line.
-/

namespace CleanOrderpool

/-- A chain state snapshot (the value returned by `provider_factory.latest()`).
Opaque handle in the source; identified here by a natural number. -/
abbrev ChainState := Nat

/-- A block header event, as delivered by `subscribe_blocks`.  In the source the
block number is an `Option<U64>`; `block.number.unwrap_or_default().as_u64()`
turns a missing number into `0`.  Values are `u64`, i.e. `< 2^64`; no arithmetic
is performed on them. -/
structure Block where
  number : Option Nat
  deriving Repr, DecidableEq

/-- The external `OrderPool`, consumed through its two operations
`head_updated(block_number, &state)` (a mutation) and `content_count()`
(returning `(tx_count, bundle_count)`).  The pool's internal algorithm is
opaque to this job, so it is modelled as an arbitrary state type `P` with the
two operations. -/
structure PoolModel (P : Type) where
  head_updated : P → Nat → ChainState → P
  content_count : P → Nat × Nat

/-- The per-event part of the environment: the header event itself, the result
of `provider_factory.latest()` for this iteration, and whether the orderpool
mutex is poisoned when this iteration calls `.lock()` (in which case `.unwrap()`
panics). -/
structure CycleEnv where
  block : Block
  fetch : Except String ChainState
  poisoned : Bool
  deriving Repr

/-- `block.number.unwrap_or_default().as_u64()` (line 51). -/
def blockNum (e : CycleEnv) : Nat := e.block.number.getD 0

/-- Whether `provider_factory.latest()` succeeded for this event. -/
def fetchOk (e : CycleEnv) : Bool :=
  match e.fetch with
  | .ok _ => true
  | .error _ => false

/-- The snapshot returned by a successful `provider_factory.latest()` (dummy `0`
when the fetch failed — only used under a `fetchOk` hypothesis). -/
def fetchedState (e : CycleEnv) : ChainState :=
  match e.fetch with
  | .ok st => st
  | .error _ => 0

/-- One observable effect of the job, in trace order. -/
inductive Action where
  /-- `info!("Clean orderpool job: started")` (line 38). -/
  | logStart
  /-- `error!("Failed to subscribe to a new block stream: ...")` (line 43). -/
  | logSubscribeError
  /-- `set_current_block(block_number)` (line 52). -/
  | setCurrentBlock (n : Nat)
  /-- the call to `provider_factory.latest()` (line 53). -/
  | fetchLatest
  /-- `error!("Failed to get latest state: ...")` (line 56). -/
  | logStateError
  /-- `orderpool.lock().unwrap()` succeeding (line 62). -/
  | lockAcquire
  /-- `Instant::now()` (line 63). -/
  | timerStart
  /-- `orderpool.head_updated(block_number, &state)` (line 65). -/
  | headUpdated (n : Nat) (st : ChainState)
  /-- `start.elapsed()` (line 67). -/
  | timerStop
  /-- `orderpool.content_count()` (line 68). -/
  | readContentCount (tx bundles : Nat)
  /-- `set_ordepool_count(tx_count, bundle_count)` (line 69). -/
  | setOrderpoolCount (tx bundles : Nat)
  /-- the `debug!(block_number, tx_count, bundle_count, update_time_ms, ...)`
  line (lines 70–76). -/
  | logCleaned (n tx bundles : Nat)
  /-- the `MutexGuard` drop at the end of the `while` body's scope (line 77):
  the point where the orderpool lock is released. -/
  | lockRelease
  /-- the panic raised by `.lock().unwrap()` on a poisoned mutex (line 62);
  the task unwinds: nothing after this action runs. -/
  | poisonAbort
  /-- `global_cancellation.cancel()` (line 44 or line 79). -/
  | cancelSignal
  /-- `info!("Clean orderpool job: finished")` (line 80). -/
  | logFinished
  deriving Repr, DecidableEq

/-- Result of one maintenance cycle: its action trace, the pool state after it,
and whether the task panicked (poisoned mutex) during it. -/
structure CycleResult (P : Type) where
  actions : List Action
  pool : P
  panicked : Bool

/-- One maintenance cycle (lines 51–76): extract the block number, record it,
fetch the latest state (on failure log and `continue`), lock the pool
(panicking if poisoned), time `head_updated`, read counts, emit the metric and
the debug line, and drop the guard at the end of the body. -/
def runCycle {P : Type} (M : PoolModel P) (pool : P) (e : CycleEnv) :
    CycleResult P :=
  let n := blockNum e
  match e.fetch with
  | .error _ =>
      ⟨[.setCurrentBlock n, .fetchLatest, .logStateError], pool, false⟩
  | .ok st =>
      if e.poisoned then
        ⟨[.setCurrentBlock n, .fetchLatest, .poisonAbort], pool, true⟩
      else
        let pool1 := M.head_updated pool n st
        let tx := (M.content_count pool1).1
        let b := (M.content_count pool1).2
        ⟨[.setCurrentBlock n, .fetchLatest, .lockAcquire, .timerStart,
          .headUpdated n st, .timerStop, .readContentCount tx b,
          .setOrderpoolCount tx b, .logCleaned n tx b, .lockRelease],
          pool1, false⟩

/-- The `while let Some(block) = new_block_stream.next().await` loop (lines
50–77) over the events the stream actually yields, threading the pool state;
a panic (poisoned mutex) aborts the loop (second component `true`). -/
def runLoop {P : Type} (M : PoolModel P) (pool : P) :
    List CycleEnv → List Action × Bool
  | [] => ([], false)
  | e :: es =>
      let r := runCycle M pool e
      if r.panicked then (r.actions, true)
      else
        let rest := runLoop M r.pool es
        (r.actions ++ rest.1, rest.2)

/-- The whole-job environment: whether the in-task `subscribe_blocks` (line 40)
succeeds, the buffered header events of the underlying stream, and the
`take_until` cancellation point — `cancelAt = some c` means the external
`CancellationToken` is observed fired at the `(c+1)`-th `next().await`, so the
combined stream yields exactly the first `c` events and then ends;
`cancelAt = none` means cancellation never fires and the stream ends by
exhaustion. -/
structure JobEnv where
  subOk : Bool
  allEvents : List CycleEnv
  cancelAt : Option Nat
  deriving Repr

/-- The events yielded by `stream.take_until(global_cancellation.cancelled())`
(line 41): everything up to the cancellation point, or everything if
cancellation never fires. -/
def yieldedEvents (env : JobEnv) : List CycleEnv :=
  match env.cancelAt with
  | some c => env.allEvents.take c
  | none => env.allEvents

/-- The spawned task (lines 37–81): log start; open the real subscription (on
failure: log, cancel, return — note no "finished" log); run the loop over the
yielded events; unless the task panicked, cancel the token (line 79) and log
"finished" (line 80). -/
def runJob {P : Type} (M : PoolModel P) (pool : P) (env : JobEnv) :
    List Action :=
  if env.subOk then
    let body := runLoop M pool (yieldedEvents env)
    if body.2 then Action.logStart :: body.1
    else Action.logStart :: body.1 ++ [Action.cancelSignal, Action.logFinished]
  else
    [Action.logStart, Action.logSubscribeError, Action.cancelSignal]

/-- The bootstrap environment of `spawn_clean_orderpool_job` (lines 29–35):
the result of `Ipc::connect`, of the trial `subscribe_blocks`, of the trial
`sub.unsubscribe()` (whose failure the source ignores via
`unwrap_or_default()`), and the environment the spawned task will see. -/
structure BootstrapEnv where
  ipcConnect : Except String Unit
  trialSubscribe : Except String Unit
  unsubscribeOk : Bool
  jobEnv : JobEnv
  deriving Repr

/-- `spawn_clean_orderpool_job` (lines 23–83): connect (`?`), open and tear
down the trial subscription (`?`; teardown failure ignored), then spawn the
task.  The returned `JoinHandle` is modelled by the spawned task's eventual
trace.  An `.error` result means the function returned `Err` to the caller and
no task was spawned. -/
def spawn_clean_orderpool_job {P : Type} (M : PoolModel P) (pool : P)
    (env : BootstrapEnv) : Except String (List Action) :=
  match env.ipcConnect with
  | .error e => .error e
  | .ok _ =>
      match env.trialSubscribe with
      | .error e => .error e
      | .ok _ =>
          .ok (runJob M pool env.jobEnv)

/-- The `head_updated` invocations recorded in a trace, in order, with their
`(block_number, state)` arguments. -/
def headUpdatedCalls (as : List Action) : List (Nat × ChainState) :=
  as.filterMap fun a =>
    match a with
    | .headUpdated n st => some (n, st)
    | _ => none

/-- Is this action a `set_current_block` metric update? -/
def isSetCurrentBlock : Action → Bool
  | .setCurrentBlock _ => true
  | _ => false

/-- Is this action a `set_ordepool_count` metric update? -/
def isPoolMetric : Action → Bool
  | .setOrderpoolCount _ _ => true
  | _ => false

/-- Is this action the per-cycle `debug!("Cleaned orderpool")` line? -/
def isLogCleaned : Action → Bool
  | .logCleaned _ _ _ => true
  | _ => false

/-- Is this action the `error!("Failed to get latest state")` line? -/
def isStateError : Action → Bool
  | .logStateError => true
  | _ => false

/-- Lock-held state after executing one action (mutex acquired on
`lockAcquire`, released when the guard drops on `lockRelease`). -/
def heldNext (a : Action) (h : Bool) : Bool :=
  match a with
  | .lockAcquire => true
  | .lockRelease => false
  | _ => h

/-- Pair every action of a trace with the lock-held state in which it executes
(the state *before* the action takes effect: `lockAcquire` itself executes
unheld, `lockRelease` executes held). -/
def markHeld : List Action → Bool → List (Action × Bool)
  | [], _ => []
  | a :: as, h => (a, h) :: markHeld as (heldNext a h)

/-- Lock-held state after executing a whole list of actions. -/
def heldAfter (as : List Action) (h : Bool) : Bool :=
  as.foldl (fun h a => heldNext a h) h

/-- The actions of the source that execute while the `MutexGuard` of line 62 is
live: the timed `head_updated` call, the `content_count` read, the
`set_ordepool_count` metric, the `debug!` line, and the guard drop itself. -/
def duringLock : Action → Bool
  | .timerStart => true
  | .headUpdated _ _ => true
  | .timerStop => true
  | .readContentCount _ _ => true
  | .setOrderpoolCount _ _ => true
  | .logCleaned _ _ _ => true
  | .lockRelease => true
  | _ => false

/-- Timer state after executing one action (`Instant::now()` starts it,
`start.elapsed()` stops it). -/
def timedNext (a : Action) (t : Bool) : Bool :=
  match a with
  | .timerStart => true
  | .timerStop => false
  | _ => t

/-- Pair every action with whether it executes between `Instant::now()` and
`start.elapsed()` (the interval whose duration is reported as
`update_time_ms`). -/
def markTimed : List Action → Bool → List (Action × Bool)
  | [], _ => []
  | a :: as, t => (a, t) :: markTimed as (timedNext a t)

/-- Timer state after a whole list of actions. -/
def timedAfter (as : List Action) (t : Bool) : Bool :=
  as.foldl (fun t a => timedNext a t) t

/-- The actions that execute inside the timed interval: only the
`head_updated` call (and the `elapsed` read that closes the interval). -/
def isTimed : Action → Bool
  | .headUpdated _ _ => true
  | .timerStop => true
  | _ => false

/-- A concrete pool instantiation for witnesses: state counts the number of
synchronizations; `content_count p = (p, p + 1)`. -/
def natPool : PoolModel Nat where
  head_updated := fun p _ _ => p + 1
  content_count := fun p => (p, p + 1)

/-- A header event with block number `n` whose state fetch succeeds with
snapshot `st`. -/
def evOk (n : Nat) (st : ChainState) : CycleEnv :=
  ⟨⟨some n⟩, .ok st, false⟩

/-- A header event with block number `n` whose state fetch fails. -/
def evFail (n : Nat) : CycleEnv :=
  ⟨⟨some n⟩, .error "state fetch failed", false⟩

/-- A header event whose cycle finds the orderpool mutex poisoned. -/
def evPoison (n : Nat) (st : ChainState) : CycleEnv :=
  ⟨⟨some n⟩, .ok st, true⟩

/-- The arguments `(block_number, &state)` that the cycle for event `e` passes
to `head_updated` when its fetch succeeded. -/
def syncArgs (e : CycleEnv) : Nat × ChainState := (blockNum e, fetchedState e)

/-- No event of the list can trigger the poisoned-mutex panic: whenever its
fetch succeeds (so the cycle reaches `.lock().unwrap()`), the mutex is not
poisoned. -/
def panicFree (es : List CycleEnv) : Prop :=
  ∀ e ∈ es, fetchOk e = true → e.poisoned = false

instance (es : List CycleEnv) : Decidable (panicFree es) := by
  unfold panicFree
  infer_instance

end CleanOrderpool

namespace CleanOrderpool

lemma heldAfter_cons (a : Action) (as : List Action) (h : Bool) :
    heldAfter (a :: as) h = heldAfter as (heldNext a h) := by
  simp [heldAfter]

lemma heldAfter_append (xs ys : List Action) (h : Bool) :
    heldAfter (xs ++ ys) h = heldAfter ys (heldAfter xs h) := by
  simp [heldAfter, List.foldl_append]

lemma markHeld_append (xs ys : List Action) (h : Bool) :
    markHeld (xs ++ ys) h = markHeld xs h ++ markHeld ys (heldAfter xs h) := by
  induction xs generalizing h with
  | nil => simp [markHeld, heldAfter]
  | cons a as ih => simp [markHeld, heldAfter_cons, ih]

lemma timedAfter_cons (a : Action) (as : List Action) (t : Bool) :
    timedAfter (a :: as) t = timedAfter as (timedNext a t) := by
  simp [timedAfter]

lemma timedAfter_append (xs ys : List Action) (t : Bool) :
    timedAfter (xs ++ ys) t = timedAfter ys (timedAfter xs t) := by
  simp [timedAfter, List.foldl_append]

lemma markTimed_append (xs ys : List Action) (t : Bool) :
    markTimed (xs ++ ys) t = markTimed xs t ++ markTimed ys (timedAfter xs t) := by
  induction xs generalizing t with
  | nil => simp [markTimed, timedAfter]
  | cons a as ih => simp [markTimed, timedAfter_cons, ih]

end CleanOrderpool

namespace CleanOrderpool

lemma runCycle_markHeld {P : Type} (M : PoolModel P) (pool : P) (e : CycleEnv) :
    ∀ x ∈ markHeld (runCycle M pool e).actions false, x.2 = duringLock x.1 := by
  obtain ⟨blk, fetch, pois⟩ := e
  cases fetch with
  | error err =>
      intro x hx
      simp [runCycle, markHeld, heldNext] at hx
      rcases hx with rfl | rfl | rfl <;> rfl
  | ok st =>
      cases pois with
      | true =>
          intro x hx
          simp [runCycle, markHeld, heldNext] at hx
          rcases hx with rfl | rfl | rfl <;> rfl
      | false =>
          intro x hx
          simp [runCycle, markHeld, heldNext] at hx
          rcases hx with rfl | rfl | rfl | rfl | rfl | rfl | rfl | rfl | rfl | rfl <;> rfl

lemma heldAfter_runCycle {P : Type} (M : PoolModel P) (pool : P) (e : CycleEnv) :
    heldAfter (runCycle M pool e).actions false = false := by
  obtain ⟨blk, fetch, pois⟩ := e
  cases fetch with
  | error err => simp [runCycle, heldAfter, heldNext]
  | ok st =>
      cases pois with
      | true => simp [runCycle, heldAfter, heldNext]
      | false => simp [runCycle, heldAfter, heldNext]

lemma runCycle_markTimed {P : Type} (M : PoolModel P) (pool : P) (e : CycleEnv) :
    ∀ x ∈ markTimed (runCycle M pool e).actions false, x.2 = isTimed x.1 := by
  obtain ⟨blk, fetch, pois⟩ := e
  cases fetch with
  | error err =>
      intro x hx
      simp [runCycle, markTimed, timedNext] at hx
      rcases hx with rfl | rfl | rfl <;> rfl
  | ok st =>
      cases pois with
      | true =>
          intro x hx
          simp [runCycle, markTimed, timedNext] at hx
          rcases hx with rfl | rfl | rfl <;> rfl
      | false =>
          intro x hx
          simp [runCycle, markTimed, timedNext] at hx
          rcases hx with rfl | rfl | rfl | rfl | rfl | rfl | rfl | rfl | rfl | rfl <;> rfl

lemma timedAfter_runCycle {P : Type} (M : PoolModel P) (pool : P) (e : CycleEnv) :
    timedAfter (runCycle M pool e).actions false = false := by
  obtain ⟨blk, fetch, pois⟩ := e
  cases fetch with
  | error err => simp [runCycle, timedAfter, timedNext]
  | ok st =>
      cases pois with
      | true => simp [runCycle, timedAfter, timedNext]
      | false => simp [runCycle, timedAfter, timedNext]

end CleanOrderpool

namespace CleanOrderpool

lemma runLoop_markHeld {P : Type} (M : PoolModel P) :
    ∀ (es : List CycleEnv) (pool : P),
      ∀ x ∈ markHeld (runLoop M pool es).1 false, x.2 = duringLock x.1 := by
  intro es
  induction es with
  | nil => intro pool x hx; simp [runLoop, markHeld] at hx
  | cons e es ih =>
      intro pool x hx
      by_cases hp : (runCycle M pool e).panicked
      · simp [runLoop, hp] at hx
        exact runCycle_markHeld M pool e x hx
      · simp [runLoop, hp, markHeld_append, heldAfter_runCycle] at hx
        rcases hx with h1 | h2
        · exact runCycle_markHeld M pool e x h1
        · exact ih _ x h2

lemma heldAfter_runLoop {P : Type} (M : PoolModel P) :
    ∀ (es : List CycleEnv) (pool : P),
      heldAfter (runLoop M pool es).1 false = false := by
  intro es
  induction es with
  | nil => intro pool; simp [runLoop, heldAfter]
  | cons e es ih =>
      intro pool
      by_cases hp : (runCycle M pool e).panicked
      · simp [runLoop, hp, heldAfter_runCycle]
      · simp [runLoop, hp, heldAfter_append, heldAfter_runCycle, ih]

lemma runLoop_markTimed {P : Type} (M : PoolModel P) :
    ∀ (es : List CycleEnv) (pool : P),
      ∀ x ∈ markTimed (runLoop M pool es).1 false, x.2 = isTimed x.1 := by
  intro es
  induction es with
  | nil => intro pool x hx; simp [runLoop, markTimed] at hx
  | cons e es ih =>
      intro pool x hx
      by_cases hp : (runCycle M pool e).panicked
      · simp [runLoop, hp] at hx
        exact runCycle_markTimed M pool e x hx
      · simp [runLoop, hp, markTimed_append, timedAfter_runCycle] at hx
        rcases hx with h1 | h2
        · exact runCycle_markTimed M pool e x h1
        · exact ih _ x h2

lemma timedAfter_runLoop {P : Type} (M : PoolModel P) :
    ∀ (es : List CycleEnv) (pool : P),
      timedAfter (runLoop M pool es).1 false = false := by
  intro es
  induction es with
  | nil => intro pool; simp [runLoop, timedAfter]
  | cons e es ih =>
      intro pool
      by_cases hp : (runCycle M pool e).panicked
      · simp [runLoop, hp, timedAfter_runCycle]
      · simp [runLoop, hp, timedAfter_append, timedAfter_runCycle, ih]

end CleanOrderpool

namespace CleanOrderpool

lemma cancelSignal_not_mem_runCycle {P : Type} (M : PoolModel P) (pool : P)
    (e : CycleEnv) : Action.cancelSignal ∉ (runCycle M pool e).actions := by
  obtain ⟨blk, fetch, pois⟩ := e
  cases fetch with
  | error err => simp [runCycle]
  | ok st => cases pois <;> simp [runCycle]

lemma logFinished_not_mem_runCycle {P : Type} (M : PoolModel P) (pool : P)
    (e : CycleEnv) : Action.logFinished ∉ (runCycle M pool e).actions := by
  obtain ⟨blk, fetch, pois⟩ := e
  cases fetch with
  | error err => simp [runCycle]
  | ok st => cases pois <;> simp [runCycle]

lemma cancelSignal_not_mem_runLoop {P : Type} (M : PoolModel P) :
    ∀ (es : List CycleEnv) (pool : P),
      Action.cancelSignal ∉ (runLoop M pool es).1 := by
  intro es
  induction es with
  | nil => intro pool; simp [runLoop]
  | cons e es ih =>
      intro pool
      by_cases hp : (runCycle M pool e).panicked
      · simp [runLoop, hp]
        exact cancelSignal_not_mem_runCycle M pool e
      · simp [runLoop, hp]
        exact ⟨cancelSignal_not_mem_runCycle M pool e, ih _⟩

lemma logFinished_not_mem_runLoop {P : Type} (M : PoolModel P) :
    ∀ (es : List CycleEnv) (pool : P),
      Action.logFinished ∉ (runLoop M pool es).1 := by
  intro es
  induction es with
  | nil => intro pool; simp [runLoop]
  | cons e es ih =>
      intro pool
      by_cases hp : (runCycle M pool e).panicked
      · simp [runLoop, hp]
        exact logFinished_not_mem_runCycle M pool e
      · simp [runLoop, hp]
        exact ⟨logFinished_not_mem_runCycle M pool e, ih _⟩

lemma runLoop_not_panicked {P : Type} (M : PoolModel P) :
    ∀ (es : List CycleEnv) (pool : P), panicFree es →
      (runLoop M pool es).2 = false := by
  intro es
  induction es with
  | nil => intro pool _; simp [runLoop]
  | cons e es ih =>
      intro pool hfree
      have hp : (runCycle M pool e).panicked = false := by
        obtain ⟨blk, fetch, pois⟩ := e
        cases fetch with
        | error err => simp [runCycle]
        | ok st =>
            have := hfree ⟨blk, .ok st, pois⟩ (by simp) (by simp [fetchOk])
            simp at this
            simp [runCycle, this]
      have hfree' : panicFree es := fun x hx => hfree x (List.mem_cons_of_mem _ hx)
      simp [runLoop, hp, ih _ hfree']

end CleanOrderpool

namespace CleanOrderpool

lemma headUpdatedCalls_append (xs ys : List Action) :
    headUpdatedCalls (xs ++ ys) = headUpdatedCalls xs ++ headUpdatedCalls ys := by
  simp [headUpdatedCalls, List.filterMap_append]

lemma runLoop_cons_eq {P : Type} (M : PoolModel P) (pool : P) (e : CycleEnv)
    (es : List CycleEnv) (hp : (runCycle M pool e).panicked = false) :
    (runLoop M pool (e :: es)).1
      = (runCycle M pool e).actions
        ++ (runLoop M (runCycle M pool e).pool es).1 := by
  simp [runLoop, hp]

lemma headUpdatedCalls_runLoop {P : Type} (M : PoolModel P) :
    ∀ (es : List CycleEnv) (pool : P), panicFree es →
      headUpdatedCalls (runLoop M pool es).1
        = (es.filter fetchOk).map syncArgs := by
  intro es
  induction es with
  | nil => intro pool _; simp [runLoop, headUpdatedCalls]
  | cons e es ih =>
      intro pool hfree
      have hfree' : panicFree es := fun x hx => hfree x (List.mem_cons_of_mem _ hx)
      obtain ⟨blk, fetch, pois⟩ := e
      cases fetch with
      | error err =>
          have hp : (runCycle M pool ⟨blk, .error err, pois⟩).panicked = false := by
            simp [runCycle]
          rw [runLoop_cons_eq M pool _ es hp, headUpdatedCalls_append, ih _ hfree']
          simp [runCycle, headUpdatedCalls, List.filter_cons, fetchOk]
      | ok st =>
          have hpois : pois = false := by
            simpa using hfree ⟨blk, .ok st, pois⟩ (by simp) (by simp [fetchOk])
          subst hpois
          have hp : (runCycle M pool ⟨blk, .ok st, false⟩).panicked = false := by
            simp [runCycle]
          rw [runLoop_cons_eq M pool _ es hp, headUpdatedCalls_append, ih _ hfree']
          simp [runCycle, headUpdatedCalls, List.filter_cons, fetchOk, syncArgs,
            fetchedState]

lemma countP_setCurrentBlock_runLoop {P : Type} (M : PoolModel P) :
    ∀ (es : List CycleEnv) (pool : P), panicFree es →
      (runLoop M pool es).1.countP isSetCurrentBlock = es.length := by
  intro es
  induction es with
  | nil => intro pool _; simp [runLoop]
  | cons e es ih =>
      intro pool hfree
      have hfree' : panicFree es := fun x hx => hfree x (List.mem_cons_of_mem _ hx)
      obtain ⟨blk, fetch, pois⟩ := e
      cases fetch with
      | error err =>
          have hp : (runCycle M pool ⟨blk, .error err, pois⟩).panicked = false := by
            simp [runCycle]
          simp [runLoop, hp, List.countP_append, ih _ hfree', runCycle,
            List.countP_cons, isSetCurrentBlock]
      | ok st =>
          have hpois : pois = false := by
            simpa using hfree ⟨blk, .ok st, pois⟩ (by simp) (by simp [fetchOk])
          subst hpois
          have hp : (runCycle M pool ⟨blk, .ok st, false⟩).panicked = false := by
            simp [runCycle]
          simp [runLoop, hp, List.countP_append, ih _ hfree', runCycle,
            List.countP_cons, isSetCurrentBlock]

lemma countP_stateError_runLoop {P : Type} (M : PoolModel P) :
    ∀ (es : List CycleEnv) (pool : P), panicFree es →
      (runLoop M pool es).1.countP isStateError
        = (es.filter fun e => !fetchOk e).length := by
  intro es
  induction es with
  | nil => intro pool _; simp [runLoop]
  | cons e es ih =>
      intro pool hfree
      have hfree' : panicFree es := fun x hx => hfree x (List.mem_cons_of_mem _ hx)
      obtain ⟨blk, fetch, pois⟩ := e
      cases fetch with
      | error err =>
          have hp : (runCycle M pool ⟨blk, .error err, pois⟩).panicked = false := by
            simp [runCycle]
          simp [runLoop, hp, List.countP_append, ih _ hfree', runCycle,
            List.countP_cons, isStateError, List.filter_cons, fetchOk]
      | ok st =>
          have hpois : pois = false := by
            simpa using hfree ⟨blk, .ok st, pois⟩ (by simp) (by simp [fetchOk])
          subst hpois
          have hp : (runCycle M pool ⟨blk, .ok st, false⟩).panicked = false := by
            simp [runCycle]
          simp [runLoop, hp, List.countP_append, ih _ hfree', runCycle,
            List.countP_cons, isStateError, List.filter_cons, fetchOk]

lemma countP_poolMetric_runLoop {P : Type} (M : PoolModel P) :
    ∀ (es : List CycleEnv) (pool : P), panicFree es →
      (runLoop M pool es).1.countP isPoolMetric
        = (es.filter fetchOk).length := by
  intro es
  induction es with
  | nil => intro pool _; simp [runLoop]
  | cons e es ih =>
      intro pool hfree
      have hfree' : panicFree es := fun x hx => hfree x (List.mem_cons_of_mem _ hx)
      obtain ⟨blk, fetch, pois⟩ := e
      cases fetch with
      | error err =>
          have hp : (runCycle M pool ⟨blk, .error err, pois⟩).panicked = false := by
            simp [runCycle]
          simp [runLoop, hp, List.countP_append, ih _ hfree', runCycle,
            List.countP_cons, isPoolMetric, List.filter_cons, fetchOk]
      | ok st =>
          have hpois : pois = false := by
            simpa using hfree ⟨blk, .ok st, pois⟩ (by simp) (by simp [fetchOk])
          subst hpois
          have hp : (runCycle M pool ⟨blk, .ok st, false⟩).panicked = false := by
            simp [runCycle]
          simp [runLoop, hp, List.countP_append, ih _ hfree', runCycle,
            List.countP_cons, isPoolMetric, List.filter_cons, fetchOk]

lemma countP_logCleaned_runLoop {P : Type} (M : PoolModel P) :
    ∀ (es : List CycleEnv) (pool : P), panicFree es →
      (runLoop M pool es).1.countP isLogCleaned
        = (es.filter fetchOk).length := by
  intro es
  induction es with
  | nil => intro pool _; simp [runLoop]
  | cons e es ih =>
      intro pool hfree
      have hfree' : panicFree es := fun x hx => hfree x (List.mem_cons_of_mem _ hx)
      obtain ⟨blk, fetch, pois⟩ := e
      cases fetch with
      | error err =>
          have hp : (runCycle M pool ⟨blk, .error err, pois⟩).panicked = false := by
            simp [runCycle]
          simp [runLoop, hp, List.countP_append, ih _ hfree', runCycle,
            List.countP_cons, isLogCleaned, List.filter_cons, fetchOk]
      | ok st =>
          have hpois : pois = false := by
            simpa using hfree ⟨blk, .ok st, pois⟩ (by simp) (by simp [fetchOk])
          subst hpois
          have hp : (runCycle M pool ⟨blk, .ok st, false⟩).panicked = false := by
            simp [runCycle]
          simp [runLoop, hp, List.countP_append, ih _ hfree', runCycle,
            List.countP_cons, isLogCleaned, List.filter_cons, fetchOk]

end CleanOrderpool

namespace CleanOrderpool

lemma runCycle_not_panicked {P : Type} (M : PoolModel P) (pool : P)
    (e : CycleEnv) (h : fetchOk e = true → e.poisoned = false) :
    (runCycle M pool e).panicked = false := by
  obtain ⟨blk, fetch, pois⟩ := e
  cases fetch with
  | error err => simp [runCycle]
  | ok st =>
      have hpois : pois = false := by simpa using h (by simp [fetchOk])
      simp [runCycle, hpois]

lemma runLoop_cons_pair {P : Type} (M : PoolModel P) (pool : P) (e : CycleEnv)
    (es : List CycleEnv) (hp : (runCycle M pool e).panicked = false) :
    runLoop M pool (e :: es)
      = ((runCycle M pool e).actions
          ++ (runLoop M (runCycle M pool e).pool es).1,
         (runLoop M (runCycle M pool e).pool es).2) := by
  simp [runLoop, hp]

lemma runLoop_poison_stop {P : Type} (M : PoolModel P) (ek : CycleEnv)
    (post : List CycleEnv) (hok : fetchOk ek = true)
    (hpois : ek.poisoned = true) :
    ∀ (pre : List CycleEnv) (pool : P), panicFree pre →
      runLoop M pool (pre ++ ek :: post)
        = ((runLoop M pool pre).1
            ++ [.setCurrentBlock (blockNum ek), .fetchLatest, .poisonAbort],
           true) := by
  intro pre
  induction pre with
  | nil =>
      intro pool _
      obtain ⟨blk, fetch, pois⟩ := ek
      cases fetch with
      | error err => simp [fetchOk] at hok
      | ok st =>
          have hp : pois = true := by simpa using hpois
          subst hp
          simp [runLoop, runCycle]
  | cons e pre ih =>
      intro pool hfree
      have hfree' : panicFree pre := fun x hx => hfree x (List.mem_cons_of_mem _ hx)
      have hp : (runCycle M pool e).panicked = false :=
        runCycle_not_panicked M pool e (hfree e (List.mem_cons_self _ _))
      rw [List.cons_append, runLoop_cons_pair M pool e _ hp, ih _ hfree',
        runLoop_cons_eq M pool e pre hp]
      simp

lemma runJob_normal {P : Type} (M : PoolModel P) (pool : P) (env : JobEnv)
    (hsub : env.subOk = true) (hfree : panicFree (yieldedEvents env)) :
    runJob M pool env
      = Action.logStart :: (runLoop M pool (yieldedEvents env)).1
        ++ [Action.cancelSignal, Action.logFinished] := by
  have h2 := runLoop_not_panicked M (yieldedEvents env) pool hfree
  simp [runJob, hsub, h2]

lemma runJob_subFail {P : Type} (M : PoolModel P) (pool : P) (env : JobEnv)
    (hsub : env.subOk = false) :
    runJob M pool env
      = [Action.logStart, Action.logSubscribeError, Action.cancelSignal] := by
  simp [runJob, hsub]

lemma headUpdatedCalls_logStart_cons (as : List Action) :
    headUpdatedCalls (Action.logStart :: as) = headUpdatedCalls as := by
  simp [headUpdatedCalls]

lemma headUpdatedCalls_final_pair (as : List Action) :
    headUpdatedCalls (as ++ [Action.cancelSignal, Action.logFinished])
      = headUpdatedCalls as := by
  simp [headUpdatedCalls]

end CleanOrderpool

namespace CleanOrderpool

lemma runJob_eq_of_panicked {P : Type} (M : PoolModel P) (pool : P)
    (env : JobEnv) (hsub : env.subOk = true)
    (hpan : (runLoop M pool (yieldedEvents env)).2 = true) :
    runJob M pool env
      = Action.logStart :: (runLoop M pool (yieldedEvents env)).1 := by
  simp [runJob, hsub, hpan]

lemma runJob_eq_of_not_panicked {P : Type} (M : PoolModel P) (pool : P)
    (env : JobEnv) (hsub : env.subOk = true)
    (hpan : (runLoop M pool (yieldedEvents env)).2 = false) :
    runJob M pool env
      = Action.logStart :: (runLoop M pool (yieldedEvents env)).1
        ++ [Action.cancelSignal, Action.logFinished] := by
  simp [runJob, hsub, hpan]

lemma markHeld_runJob {P : Type} (M : PoolModel P) (pool : P) (env : JobEnv) :
    ∀ x ∈ markHeld (runJob M pool env) false, x.2 = duringLock x.1 := by
  intro x hx
  by_cases hsub : env.subOk = true
  · cases hpan : (runLoop M pool (yieldedEvents env)).2 with
    | true =>
        rw [runJob_eq_of_panicked M pool env hsub hpan] at hx
        simp only [markHeld, heldNext, List.mem_cons] at hx
        rcases hx with rfl | hx
        · rfl
        · exact runLoop_markHeld M _ pool x hx
    | false =>
        rw [runJob_eq_of_not_panicked M pool env hsub hpan] at hx
        simp only [markHeld, heldNext, List.append_eq, markHeld_append,
          heldAfter_runLoop, List.mem_cons, List.mem_append,
          List.not_mem_nil, or_false] at hx
        rcases hx with rfl | hx | rfl | rfl
        · rfl
        · exact runLoop_markHeld M _ pool x hx
        · rfl
        · rfl
  · have hsub' : env.subOk = false := by simpa using hsub
    rw [runJob_subFail M pool env hsub'] at hx
    simp only [markHeld, heldNext, List.mem_cons, List.not_mem_nil,
      or_false] at hx
    rcases hx with rfl | rfl | rfl <;> rfl

lemma markTimed_runJob {P : Type} (M : PoolModel P) (pool : P) (env : JobEnv) :
    ∀ x ∈ markTimed (runJob M pool env) false, x.2 = isTimed x.1 := by
  intro x hx
  by_cases hsub : env.subOk = true
  · cases hpan : (runLoop M pool (yieldedEvents env)).2 with
    | true =>
        rw [runJob_eq_of_panicked M pool env hsub hpan] at hx
        simp only [markTimed, timedNext, List.mem_cons] at hx
        rcases hx with rfl | hx
        · rfl
        · exact runLoop_markTimed M _ pool x hx
    | false =>
        rw [runJob_eq_of_not_panicked M pool env hsub hpan] at hx
        simp only [markTimed, timedNext, List.append_eq, markTimed_append,
          timedAfter_runLoop, List.mem_cons, List.mem_append,
          List.not_mem_nil, or_false] at hx
        rcases hx with rfl | hx | rfl | rfl
        · rfl
        · exact runLoop_markTimed M _ pool x hx
        · rfl
        · rfl
  · have hsub' : env.subOk = false := by simpa using hsub
    rw [runJob_subFail M pool env hsub'] at hx
    simp only [markTimed, timedNext, List.mem_cons, List.not_mem_nil,
      or_false] at hx
    rcases hx with rfl | rfl | rfl <;> rfl

end CleanOrderpool

namespace CleanOrderpool

/-- C1: for every finite sequence of `N` header events received by the
maintenance loop (here: subscription open succeeds, the stream yields exactly
these events, and no cycle panics), all of whose chain-state fetches succeed,
`OrderPool::head_updated` is invoked exactly `N` times, once per event,
strictly in arrival order, each call passed that event's block number (a
missing number contributing `0`) and that event's fetched state. -/
theorem head_updated_once_per_event {P : Type} (M : PoolModel P) (pool : P)
    (es : List CycleEnv)
    (h : ∀ e ∈ es, fetchOk e = true ∧ e.poisoned = false) :
    headUpdatedCalls (runJob M pool ⟨true, es, none⟩) = es.map syncArgs := by
  have hfree : panicFree es := fun e he _ => (h e he).2
  have hy : yieldedEvents ⟨true, es, none⟩ = es := rfl
  rw [runJob_normal M pool _ rfl (by rw [hy]; exact hfree), List.cons_append,
    headUpdatedCalls_logStart_cons, headUpdatedCalls_final_pair, hy,
    headUpdatedCalls_runLoop M es pool hfree,
    List.filter_eq_self.mpr (fun e he => (h e he).1)]

theorem head_updated_once_per_event_witness :
    headUpdatedCalls
        (runJob natPool 0 ⟨true, [evOk 100 7, evOk 101 8, evOk 102 9], none⟩)
      = [(100, 7), (101, 8), (102, 9)] := by
  have h := head_updated_once_per_event natPool 0
    [evOk 100 7, evOk 101 8, evOk 102 9] (by decide)
  exact h.trans (by decide)

/-- C2, counterexample: in a concrete run (one event, block 100, successful
fetch), the `set_ordepool_count` metric emission of step 8 executes while the
orderpool lock is still held — so the claim "the lock is never held during
step 8 (metric emission and the per-cycle diagnostic log line)" is false: the
`MutexGuard` of line 62 is only dropped at the end of the `while` body. -/
theorem lock_held_during_metric_emission :
    (Action.setOrderpoolCount 1 2, true)
        ∈ markHeld (runJob natPool 0 ⟨true, [evOk 100 7], none⟩) false
      ∧ (Action.logCleaned 100 1 2, true)
        ∈ markHeld (runJob natPool 0 ⟨true, [evOk 100 7], none⟩) false := by
  decide

/-- C2, amended: in every run, the exclusive orderpool lock is held exactly
across steps 4–8 — the synchronization call and timer, the count read, the
metric emission and the per-cycle diagnostic log line, until the guard drop at
the end of the cycle — and never during step 3 (the chain-state fetch,
`fetchLatest`) or outside a cycle: an action executes with the lock held
precisely when `duringLock` classifies it so. -/
theorem lock_scope_extends_through_cycle {P : Type} (M : PoolModel P)
    (pool : P) (env : JobEnv) :
    ∀ x ∈ markHeld (runJob M pool env) false, x.2 = duringLock x.1 :=
  markHeld_runJob M pool env

theorem lock_scope_extends_through_cycle_witness :
    (false : Bool) = duringLock Action.fetchLatest :=
  lock_scope_extends_through_cycle natPool 0 ⟨true, [evOk 100 7], none⟩
    (Action.fetchLatest, false) (by decide)

/-- C3: on every exit path of the maintenance loop — stream exhaustion, fatal
subscription-open error, or observing external cancellation — the job calls
`global_cancellation.cancel()` exactly once before terminating (given that no
cycle panics on a poisoned mutex, the exit path C8 exhibits). -/
theorem cancel_signal_exactly_once {P : Type} (M : PoolModel P) (pool : P)
    (env : JobEnv) (hfree : panicFree (yieldedEvents env)) :
    (runJob M pool env).count Action.cancelSignal = 1 := by
  by_cases hsub : env.subOk = true
  · rw [runJob_normal M pool env hsub hfree]
    have hl : (runLoop M pool (yieldedEvents env)).1.count Action.cancelSignal
        = 0 :=
      List.count_eq_zero.mpr (cancelSignal_not_mem_runLoop M _ pool)
    simp [List.count_cons, List.count_append, hl]
  · have hsub' : env.subOk = false := by simpa using hsub
    rw [runJob_subFail M pool env hsub']
    decide

theorem cancel_signal_exactly_once_witness :
    (runJob natPool 0 ⟨true, [evOk 100 7, evFail 101], none⟩).count
      Action.cancelSignal = 1 :=
  cancel_signal_exactly_once natPool 0 ⟨true, [evOk 100 7, evFail 101], none⟩
    (by decide)

end CleanOrderpool

namespace CleanOrderpool

/-- C4: if the chain-state fetch fails for exactly one event `ek` of the
sequence, the error is logged exactly once, `head_updated` is not invoked for
`ek` but is invoked for every other event, no `set_ordepool_count` metric is
emitted for `ek`'s cycle (one emission per other event), and the loop does not
terminate because of the failure: the job still runs to its normal end and
signals cancellation once. -/
theorem fetch_failure_skips_cycle {P : Type} (M : PoolModel P) (pool : P)
    (pre post : List CycleEnv) (ek : CycleEnv)
    (hpre : ∀ e ∈ pre, fetchOk e = true ∧ e.poisoned = false)
    (hpost : ∀ e ∈ post, fetchOk e = true ∧ e.poisoned = false)
    (hek : fetchOk ek = false) :
    headUpdatedCalls (runJob M pool ⟨true, pre ++ ek :: post, none⟩)
        = (pre ++ post).map syncArgs
      ∧ (runJob M pool ⟨true, pre ++ ek :: post, none⟩).countP isStateError = 1
      ∧ (runJob M pool ⟨true, pre ++ ek :: post, none⟩).countP isPoolMetric
        = (pre ++ post).length
      ∧ (runJob M pool ⟨true, pre ++ ek :: post, none⟩).count
          Action.cancelSignal = 1 := by
  have hfree : panicFree (pre ++ ek :: post) := by
    intro e he hok
    rcases List.mem_append.mp he with h1 | h2
    · exact (hpre e h1).2
    · rcases List.mem_cons.mp h2 with rfl | h3
      · rw [hek] at hok; cases hok
      · exact (hpost e h3).2
  have hy : yieldedEvents ⟨true, pre ++ ek :: post, none⟩
      = pre ++ ek :: post := rfl
  have hjob := runJob_normal M pool ⟨true, pre ++ ek :: post, none⟩ rfl
    (by rw [hy]; exact hfree)
  rw [hy] at hjob
  have hfilter : (pre ++ ek :: post).filter fetchOk = pre ++ post := by
    rw [List.filter_append, List.filter_cons,
      List.filter_eq_self.mpr (fun e he => (hpre e he).1),
      List.filter_eq_self.mpr (fun e he => (hpost e he).1)]
    simp [hek]
  have hfilterNeg : ((pre ++ ek :: post).filter fun e => !fetchOk e) = [ek] := by
    have h1 : (pre.filter fun e => !fetchOk e) = [] :=
      List.filter_eq_nil_iff.mpr (fun a ha => by simp [(hpre a ha).1])
    have h2 : (post.filter fun e => !fetchOk e) = [] :=
      List.filter_eq_nil_iff.mpr (fun a ha => by simp [(hpost a ha).1])
    rw [List.filter_append, List.filter_cons, h1, h2]
    simp [hek]
  have hcalls := headUpdatedCalls_runLoop M (pre ++ ek :: post) pool hfree
  have herr := countP_stateError_runLoop M (pre ++ ek :: post) pool hfree
  have hmet := countP_poolMetric_runLoop M (pre ++ ek :: post) pool hfree
  have hcan : (runLoop M pool (pre ++ ek :: post)).1.count Action.cancelSignal
      = 0 :=
    List.count_eq_zero.mpr (cancelSignal_not_mem_runLoop M _ pool)
  refine ⟨?_, ?_, ?_, ?_⟩
  · rw [hjob, List.cons_append, headUpdatedCalls_logStart_cons,
      headUpdatedCalls_final_pair, hcalls, hfilter]
  · rw [hjob]
    simp [List.countP_append, List.countP_cons, isStateError, herr, hfilterNeg]
  · rw [hjob]
    simp [List.countP_append, List.countP_cons, isPoolMetric, hmet, hfilter]
  · rw [hjob]
    simp [List.count_append, List.count_cons, hcan]

theorem fetch_failure_skips_cycle_witness :
    headUpdatedCalls
        (runJob natPool 0 ⟨true, [evOk 100 7, evFail 101, evOk 102 9], none⟩)
      = [(100, 7), (102, 9)] := by
  have h := fetch_failure_skips_cycle natPool 0 [evOk 100 7] [evOk 102 9]
    (evFail 101) (by decide) (by decide) (by decide)
  exact h.1.trans (by decide)

/-- C5: if the external cancellation token fires while the loop is awaiting
the next header event (`take_until` ends the stream after `c` of the buffered
events), the loop exits without consuming or acting on any further event:
exactly `c` events are processed (one `set_current_block` each), and the job
then takes its normal exit (cancel then the final log). -/
theorem cancellation_stops_event_consumption {P : Type} (M : PoolModel P)
    (pool : P) (es : List CycleEnv) (c : Nat) (hc : c ≤ es.length)
    (hfree : panicFree (es.take c)) :
    (runJob M pool ⟨true, es, some c⟩).countP isSetCurrentBlock = c
      ∧ ∃ p, runJob M pool ⟨true, es, some c⟩
          = p ++ [Action.cancelSignal, Action.logFinished] := by
  have hy : yieldedEvents ⟨true, es, some c⟩ = es.take c := rfl
  have hjob := runJob_normal M pool ⟨true, es, some c⟩ rfl
    (by rw [hy]; exact hfree)
  rw [hy] at hjob
  constructor
  · rw [hjob]
    have hcl := countP_setCurrentBlock_runLoop M (es.take c) pool hfree
    simp [List.countP_append, List.countP_cons, isSetCurrentBlock, hcl,
      List.length_take, Nat.min_eq_left hc]
  · exact ⟨Action.logStart :: (runLoop M pool (es.take c)).1, hjob⟩

theorem cancellation_stops_event_consumption_witness :
    (runJob natPool 0
        ⟨true, [evOk 100 7, evOk 101 8, evOk 102 9], some 1⟩).countP
      isSetCurrentBlock = 1 :=
  (cancellation_stops_event_consumption natPool 0
    [evOk 100 7, evOk 101 8, evOk 102 9] 1 (by decide) (by decide)).1

/-- C6: if opening the real header subscription inside the spawned task fails,
the job logs the error, sets the cancellation signal, and terminates
immediately with zero loop iterations — `head_updated` is never invoked (and
the "finished" log of the normal exit is not emitted either, matching the
early `return` of line 45). -/
theorem subscribe_failure_terminates_immediately {P : Type} (M : PoolModel P)
    (pool : P) (es : List CycleEnv) (cAt : Option Nat) :
    runJob M pool ⟨false, es, cAt⟩
        = [Action.logStart, Action.logSubscribeError, Action.cancelSignal]
      ∧ headUpdatedCalls (runJob M pool ⟨false, es, cAt⟩) = [] := by
  constructor
  · exact runJob_subFail M pool _ rfl
  · rw [runJob_subFail M pool _ rfl]; rfl

theorem subscribe_failure_terminates_immediately_witness :
    runJob natPool 0 ⟨false, [evOk 100 7], none⟩
        = [Action.logStart, Action.logSubscribeError, Action.cancelSignal]
      ∧ headUpdatedCalls (runJob natPool 0 ⟨false, [evOk 100 7], none⟩)
        = [] :=
  subscribe_failure_terminates_immediately natPool 0 [evOk 100 7] none

end CleanOrderpool

namespace CleanOrderpool

/-- C7: if bootstrap's IPC connection or trial subscription fails,
`spawn_clean_orderpool_job` returns a fatal error to the caller — no
background job handle is produced, hence no synchronization call ever occurs —
while the result never depends on whether tearing down the trial subscription
succeeded (`unwrap_or_default()` discards that failure). -/
theorem bootstrap_failure_no_job {P : Type} (M : PoolModel P) (pool : P)
    (env : BootstrapEnv) :
    ((env.ipcConnect.isOk = false ∨ env.trialSubscribe.isOk = false) →
        (spawn_clean_orderpool_job M pool env).isOk = false)
      ∧ ∀ b, spawn_clean_orderpool_job M pool
            ⟨env.ipcConnect, env.trialSubscribe, b, env.jobEnv⟩
          = spawn_clean_orderpool_job M pool env := by
  obtain ⟨ipc, trial, unsub, jenv⟩ := env
  constructor
  · intro h
    cases ipc with
    | error e => simp [spawn_clean_orderpool_job, Except.isOk, Except.toBool]
    | ok u =>
        cases trial with
        | error e =>
            simp [spawn_clean_orderpool_job, Except.isOk, Except.toBool]
        | ok v => simp [Except.isOk, Except.toBool] at h
  · intro b
    rfl

theorem bootstrap_failure_no_job_witness :
    (spawn_clean_orderpool_job natPool 0
        ⟨Except.error "connection refused", Except.ok (), true,
          ⟨true, [evOk 100 7], none⟩⟩).isOk = false :=
  (bootstrap_failure_no_job natPool 0
    ⟨Except.error "connection refused", Except.ok (), true,
      ⟨true, [evOk 100 7], none⟩⟩).1 (Or.inl (by decide))

/-- C8: if a cycle finds the orderpool mutex poisoned (`lock().unwrap()`
panics), the maintenance task aborts mid-cycle: the trace ends at the panic,
`global_cancellation.cancel()` is never called, the job-end log is never
emitted, and only the events before the poisoned one had `head_updated`
invoked — so the "signal on every exit" guarantee does not apply to this exit
path. -/
theorem poisoned_lock_panics_without_signal {P : Type} (M : PoolModel P)
    (pool : P) (pre post : List CycleEnv) (ek : CycleEnv)
    (hpre : panicFree pre) (hok : fetchOk ek = true)
    (hpois : ek.poisoned = true) :
    Action.cancelSignal ∉ runJob M pool ⟨true, pre ++ ek :: post, none⟩
      ∧ Action.logFinished ∉ runJob M pool ⟨true, pre ++ ek :: post, none⟩
      ∧ (∃ p, runJob M pool ⟨true, pre ++ ek :: post, none⟩
          = p ++ [Action.poisonAbort])
      ∧ headUpdatedCalls (runJob M pool ⟨true, pre ++ ek :: post, none⟩)
        = (pre.filter fetchOk).map syncArgs := by
  have hloop := runLoop_poison_stop M ek post hok hpois pre pool hpre
  have hy : yieldedEvents ⟨true, pre ++ ek :: post, none⟩
      = pre ++ ek :: post := rfl
  have hpan : (runLoop M pool
      (yieldedEvents ⟨true, pre ++ ek :: post, none⟩)).2 = true := by
    rw [hy, hloop]
  have hjob2 : runJob M pool ⟨true, pre ++ ek :: post, none⟩
      = Action.logStart :: ((runLoop M pool pre).1
          ++ [.setCurrentBlock (blockNum ek), .fetchLatest, .poisonAbort]) := by
    rw [runJob_eq_of_panicked M pool _ rfl hpan, hy, hloop]
  refine ⟨?_, ?_, ?_, ?_⟩
  · rw [hjob2]
    simp [List.mem_cons, List.mem_append,
      cancelSignal_not_mem_runLoop M pre pool]
  · rw [hjob2]
    simp [List.mem_cons, List.mem_append,
      logFinished_not_mem_runLoop M pre pool]
  · refine ⟨Action.logStart :: ((runLoop M pool pre).1
      ++ [.setCurrentBlock (blockNum ek), .fetchLatest]), ?_⟩
    rw [hjob2]
    simp
  · rw [hjob2, headUpdatedCalls_logStart_cons, headUpdatedCalls_append,
      headUpdatedCalls_runLoop M pre pool hpre]
    simp [headUpdatedCalls]

theorem poisoned_lock_panics_without_signal_witness :
    Action.cancelSignal
        ∉ runJob natPool 0
            ⟨true, [evOk 100 7, evPoison 101 8, evOk 102 9], none⟩
      ∧ Action.logFinished
        ∉ runJob natPool 0
            ⟨true, [evOk 100 7, evPoison 101 8, evOk 102 9], none⟩ := by
  have h := poisoned_lock_panics_without_signal natPool 0 [evOk 100 7]
    [evOk 102 9] (evPoison 101 8) (by decide) (by decide) (by decide)
  exact ⟨h.1, h.2.1⟩

/-- C9: cancellation is only observed at the await point between events — if
the token fires after event `k` has been received (the stream ends at the next
await, `cancelAt = k + 1`), event `k`'s maintenance cycle still runs to
completion (its `head_updated` call happens and its `debug!` line is emitted,
`k + 1` of each in total), and the loop then exits normally. -/
theorem cancellation_observed_only_at_await {P : Type} (M : PoolModel P)
    (pool : P) (es : List CycleEnv) (k : Nat) (hk : k < es.length)
    (h : ∀ e ∈ es.take (k + 1), fetchOk e = true ∧ e.poisoned = false) :
    headUpdatedCalls (runJob M pool ⟨true, es, some (k + 1)⟩)
        = (es.take (k + 1)).map syncArgs
      ∧ (runJob M pool ⟨true, es, some (k + 1)⟩).countP isLogCleaned = k + 1
      ∧ ∃ p, runJob M pool ⟨true, es, some (k + 1)⟩
          = p ++ [Action.cancelSignal, Action.logFinished] := by
  have hfree : panicFree (es.take (k + 1)) := fun e he _ => (h e he).2
  have hy : yieldedEvents ⟨true, es, some (k + 1)⟩ = es.take (k + 1) := rfl
  have hjob := runJob_normal M pool _ rfl (by rw [hy]; exact hfree)
  rw [hy] at hjob
  have hfilter : (es.take (k + 1)).filter fetchOk = es.take (k + 1) :=
    List.filter_eq_self.mpr (fun e he => (h e he).1)
  refine ⟨?_, ?_, ?_⟩
  · rw [hjob, List.cons_append, headUpdatedCalls_logStart_cons,
      headUpdatedCalls_final_pair, headUpdatedCalls_runLoop M _ pool hfree,
      hfilter]
  · rw [hjob]
    have hcl := countP_logCleaned_runLoop M (es.take (k + 1)) pool hfree
    rw [hfilter] at hcl
    simp [List.countP_append, List.countP_cons, isLogCleaned, hcl,
      List.length_take, Nat.min_eq_left (Nat.succ_le_of_lt hk)]
  · exact ⟨_, hjob⟩

theorem cancellation_observed_only_at_await_witness :
    headUpdatedCalls
        (runJob natPool 0 ⟨true, [evOk 100 7, evOk 101 8, evOk 102 9], some 2⟩)
      = [(100, 7), (101, 8)] := by
  have h := cancellation_observed_only_at_await natPool 0
    [evOk 100 7, evOk 101 8, evOk 102 9] 1 (by decide) (by decide)
  exact h.1.trans (by decide)

/-- C10: the update duration reported in the per-cycle diagnostic log measures
only the `head_updated` call: in every run, the only action inside a
`Instant::now()`/`elapsed` interval is `headUpdated` (so lock waiting, the
count read and metric/log emission are excluded), and the timer is started
only while the lock is already held. -/
theorem update_timer_measures_only_head_updated {P : Type} (M : PoolModel P)
    (pool : P) (env : JobEnv) :
    (∀ x ∈ markTimed (runJob M pool env) false, x.2 = isTimed x.1)
      ∧ ∀ x ∈ markHeld (runJob M pool env) false,
          x.1 = Action.timerStart → x.2 = true := by
  refine ⟨markTimed_runJob M pool env, ?_⟩
  intro x hx h1
  rw [markHeld_runJob M pool env x hx, h1]
  rfl

theorem update_timer_measures_only_head_updated_witness :
    (true : Bool) = isTimed (Action.headUpdated 100 7) :=
  (update_timer_measures_only_head_updated natPool 0
    ⟨true, [evOk 100 7], none⟩).1 (Action.headUpdated 100 7, true) (by decide)

end CleanOrderpool
